import Mathlib

/-!
Verification development for the `topology` module of lib-common
(`modules/common/topology/topology.go`).

The module exposes two operations over a shared "Topology" custom resource:

* `EnsureTopologyRef` — validate the reference, fetch the target object,
  ensure a finalizer token is present (persisting it when newly added),
  fill default scheduling-constraint fields on an independent deep copy,
  and compute a content hash of the defaulted specification.
* `EnsureDeletedTopologyRef` — validate the reference, fetch the target
  object tolerating not-found, remove the finalizer token if present and
  persist, tolerating a not-found race during the persist.

The embedding models the Kubernetes store as an explicit optional object
(the single fetch/update target), external failures as injected faults,
and records a trace of store calls so that "no store calls" and "at most
one update" properties are statable.  External collaborators
(`GetTopologyByName` from infra-operator, `controllerutil` finalizer
helpers, the client `Update`) are modelled by their documented semantics;
`helper.Helper.GetFinalizer` and `util.ObjectHash` are lib-common code
outside this file's source set and are modelled from the spec where noted.
-/

/-- Label selector attached to a scheduling constraint or affinity term
(abstracts `metav1.LabelSelector`; the module never inspects its fields,
it only tests the pointer for nil). -/
structure LabelSelector where
  matchLabels : List (String × String)
deriving DecidableEq, Repr

/-- One entry of `Spec.TopologySpreadConstraints`
(abstracts `corev1.TopologySpreadConstraint`). -/
structure TopologySpreadConstraint where
  maxSkew : Int
  topologyKey : String
  whenUnsatisfiable : String
  labelSelector : Option LabelSelector
  matchLabelKeys : List String
deriving DecidableEq, Repr

/-- A required pod-affinity term (abstracts `corev1.PodAffinityTerm`). -/
structure PodAffinityTerm where
  labelSelector : Option LabelSelector
  topologyKey : String
  matchLabelKeys : List String
deriving DecidableEq, Repr

/-- A preferred pod-affinity term (abstracts `corev1.WeightedPodAffinityTerm`). -/
structure WeightedPodAffinityTerm where
  weight : Int
  podAffinityTerm : PodAffinityTerm
deriving DecidableEq, Repr

/-- Pod affinity rules (abstracts `corev1.PodAffinity`). -/
structure PodAffinity where
  requiredDuringSchedulingIgnoredDuringExecution : List PodAffinityTerm
  preferredDuringSchedulingIgnoredDuringExecution : List WeightedPodAffinityTerm
deriving DecidableEq, Repr

/-- Pod anti-affinity rules (abstracts `corev1.PodAntiAffinity`). -/
structure PodAntiAffinity where
  requiredDuringSchedulingIgnoredDuringExecution : List PodAffinityTerm
  preferredDuringSchedulingIgnoredDuringExecution : List WeightedPodAffinityTerm
deriving DecidableEq, Repr

/-- Affinity block of the Topology spec (abstracts `corev1.Affinity`;
the nil pointers of the Go struct become `Option`). -/
structure Affinity where
  podAffinity : Option PodAffinity
  podAntiAffinity : Option PodAntiAffinity
deriving DecidableEq, Repr

/-- The `topologyv1.TopologySpec`: `TopologySpreadConstraints` is a pointer to a
slice in Go (nil pointer becomes `none`), `Affinity` a nil-able pointer. -/
structure TopologySpec where
  topologySpreadConstraints : Option (List TopologySpreadConstraint)
  affinity : Option Affinity
deriving DecidableEq, Repr

/-- The fetched `topologyv1.Topology` object: metadata we need (name,
namespace, finalizer list) plus the spec. -/
structure TopologyObj where
  name : String
  ns : String
  finalizers : List String
  spec : TopologySpec
deriving DecidableEq, Repr

/-- The reference descriptor (`topology.Topology` in the package): a target
name and namespace.  The Go caller passes a nil-able pointer, modelled as
`Option TopologyRef` at the call sites. -/
structure TopologyRef where
  name : String
  ns : String
deriving DecidableEq, Repr

/-- Modelled from the spec: `helper.Helper` (lib-common code outside this
source set) is reduced to the one capability the module uses, the owner
finalizer value returned by `h.GetFinalizer()`. -/
structure Helper where
  getFinalizer : String
deriving DecidableEq, Repr

/-- Errors surfaced by the Kubernetes store: not-found is distinguished
because both operations branch on `k8s_errors.IsNotFound`. -/
inductive K8sError where
  | notFound
  | other (msg : String)
deriving DecidableEq, Repr

/-- Errors the two operations can return. -/
inductive GoError where
  | invalidRef (msg : String)
  | k8s (e : K8sError)
  | hashErr (msg : String)
deriving DecidableEq, Repr

/-- Injected faults standing for the external failure modes: a transport
error on the fetch, an error on the client `Update`, and a marshalling
failure inside `util.ObjectHash`. -/
structure Faults where
  fetchErr : Option K8sError
  updateErr : Option K8sError
  hashErr : Option String
deriving DecidableEq, Repr

/-- One call against the object store, recorded in a trace. -/
inductive StoreCall where
  | fetch (name ns : String)
  | update (obj : TopologyObj)
deriving DecidableEq, Repr

/-- Embeds `controllerutil.AddFinalizer`: append the token if absent, return the
resulting object together with the "changed" flag. -/
def addFinalizer (obj : TopologyObj) (f : String) : TopologyObj × Bool :=
  if f ∈ obj.finalizers then (obj, false)
  else ({ obj with finalizers := obj.finalizers ++ [f] }, true)

/-- Embeds `controllerutil.RemoveFinalizer`: drop every occurrence of the token,
return the resulting object together with the "changed" flag. -/
def removeFinalizer (obj : TopologyObj) (f : String) : TopologyObj × Bool :=
  if f ∈ obj.finalizers then
    ({ obj with finalizers := obj.finalizers.filter (fun x => x != f) }, true)
  else (obj, false)

/-- The finalizer token `fmt.Sprintf("%s-%s", h.GetFinalizer(), finalizer)`. -/
def topoToken (h : Helper) (finalizer : String) : String :=
  h.getFinalizer ++ "-" ++ finalizer

/-- Embeds `topologyv1.GetTopologyByName` (external collaborator): returns the
stored object, a not-found error when it is absent, or the injected
transport error. -/
def getTopologyByName (faults : Faults) (store : Option TopologyObj) :
    Except K8sError TopologyObj :=
  match faults.fetchErr with
  | some e => Except.error e
  | none =>
    match store with
    | none => Except.error K8sError.notFound
    | some o => Except.ok o

/-- The client `Update` call: persists the object unless the injected
update fault fires, in which case the store is left unchanged. -/
def clientUpdate (faults : Faults) (store : Option TopologyObj) (o : TopologyObj) :
    Except K8sError Unit × Option TopologyObj :=
  match faults.updateErr with
  | some e => (Except.error e, store)
  | none => (Except.ok (), some o)

/-- Default-fill one topology-spread constraint: set the label selector to
the default only when nil, set the match-label keys to the default only
when the list has length zero (lines 80-88 of topology.go). -/
def fillConstraint (dls : LabelSelector) (dmlk : List String)
    (c : TopologySpreadConstraint) : TopologySpreadConstraint :=
  let c1 :=
    match c.labelSelector with
    | none => { c with labelSelector := some dls }
    | some _ => c
  match c1.matchLabelKeys with
  | [] => { c1 with matchLabelKeys := dmlk }
  | _ => c1

/-- Default-fill one pod-affinity term (required terms directly, preferred
terms through their inner `PodAffinityTerm`). -/
def fillTerm (dls : LabelSelector) (dmlk : List String)
    (t : PodAffinityTerm) : PodAffinityTerm :=
  let t1 :=
    match t.labelSelector with
    | none => { t with labelSelector := some dls }
    | some _ => t
  match t1.matchLabelKeys with
  | [] => { t1 with matchLabelKeys := dmlk }
  | _ => t1

/-- Default-fill a preferred (weighted) term: only the inner
`PodAffinityTerm` is touched, the weight is kept. -/
def fillWeighted (dls : LabelSelector) (dmlk : List String)
    (w : WeightedPodAffinityTerm) : WeightedPodAffinityTerm :=
  { w with podAffinityTerm := fillTerm dls dmlk w.podAffinityTerm }

/-- Default-fill every required and preferred term of a pod-affinity block. -/
def fillPodAffinity (dls : LabelSelector) (dmlk : List String)
    (p : PodAffinity) : PodAffinity :=
  { requiredDuringSchedulingIgnoredDuringExecution :=
      p.requiredDuringSchedulingIgnoredDuringExecution.map (fillTerm dls dmlk),
    preferredDuringSchedulingIgnoredDuringExecution :=
      p.preferredDuringSchedulingIgnoredDuringExecution.map (fillWeighted dls dmlk) }

/-- Default-fill every required and preferred term of a pod-anti-affinity block. -/
def fillPodAntiAffinity (dls : LabelSelector) (dmlk : List String)
    (p : PodAntiAffinity) : PodAntiAffinity :=
  { requiredDuringSchedulingIgnoredDuringExecution :=
      p.requiredDuringSchedulingIgnoredDuringExecution.map (fillTerm dls dmlk),
    preferredDuringSchedulingIgnoredDuringExecution :=
      p.preferredDuringSchedulingIgnoredDuringExecution.map (fillWeighted dls dmlk) }

/-- Default-fill the affinity block when present (lines 90-142). -/
def fillAffinity (dls : LabelSelector) (dmlk : List String)
    (a : Affinity) : Affinity :=
  { podAffinity := a.podAffinity.map (fillPodAffinity dls dmlk),
    podAntiAffinity := a.podAntiAffinity.map (fillPodAntiAffinity dls dmlk) }

/-- The whole default-fill pass performed on the deep copy
(lines 78-142 of topology.go). -/
def applyDefaults (dls : LabelSelector) (dmlk : List String)
    (s : TopologySpec) : TopologySpec :=
  { topologySpreadConstraints :=
      s.topologySpreadConstraints.map (fun cs => cs.map (fillConstraint dls dmlk)),
    affinity := s.affinity.map (fillAffinity dls dmlk) }

/-- The error text of line 55. -/
def invalidRefMsg : String := "No valid TopologyRef input passed"

/-- Length of a natural number encoding: unary digits closed by a colon.
Building block for the injective serialization below. -/
def encNat (n : Nat) : List Char := List.replicate n '1' ++ [':']

/-- Decoder for `encNat`, returning the value and the unread remainder. -/
def decNat : List Char → Option (Nat × List Char)
  | [] => none
  | c :: rest =>
    if c = ':' then some (0, rest)
    else if c = '1' then
      match decNat rest with
      | some p => some (p.1 + 1, p.2)
      | none => none
    else none

/-- Length-prefixed string encoding. -/
def encStr (s : String) : List Char := encNat s.data.length ++ s.data

/-- Decoder for `encStr`. -/
def decStr (l : List Char) : Option (String × List Char) :=
  match decNat l with
  | some p =>
    if p.1 ≤ p.2.length then some (String.mk (p.2.take p.1), p.2.drop p.1)
    else none
  | none => none

/-- Sign-tagged integer encoding. -/
def encInt : Int → List Char
  | Int.ofNat n => 'p' :: encNat n
  | Int.negSucc n => 'm' :: encNat n

/-- Decoder for `encInt`. -/
def decInt : List Char → Option (Int × List Char)
  | [] => none
  | c :: rest =>
    if c = 'p' then (decNat rest).map (fun p => (Int.ofNat p.1, p.2))
    else if c = 'm' then (decNat rest).map (fun p => (Int.negSucc p.1, p.2))
    else none

/-- Tagged option encoding. -/
def encOpt (enc : α → List Char) : Option α → List Char
  | none => ['n']
  | some a => 's' :: enc a

/-- Decoder for `encOpt`. -/
def decOpt (dec : List Char → Option (α × List Char)) :
    List Char → Option (Option α × List Char)
  | [] => none
  | c :: rest =>
    if c = 'n' then some (none, rest)
    else if c = 's' then (dec rest).map (fun p => (some p.1, p.2))
    else none

/-- Length-prefixed list encoding. -/
def encList (enc : α → List Char) (xs : List α) : List Char :=
  encNat xs.length ++ (xs.map enc).flatten

/-- Decode exactly `n` consecutive elements. -/
def decTimes (dec : List Char → Option (α × List Char)) :
    Nat → List Char → Option (List α × List Char)
  | 0, l => some ([], l)
  | n + 1, l =>
    match dec l with
    | some p =>
      match decTimes dec n p.2 with
      | some q => some (p.1 :: q.1, q.2)
      | none => none
    | none => none

/-- Decoder for `encList`. -/
def decList (dec : List Char → Option (α × List Char))
    (l : List Char) : Option (List α × List Char) :=
  match decNat l with
  | some p => decTimes dec p.1 p.2
  | none => none

/-- Encoding of one `matchLabels` entry. -/
def encPairStr (p : String × String) : List Char := encStr p.1 ++ encStr p.2

/-- Decoder for `encPairStr`. -/
def decPairStr (l : List Char) : Option ((String × String) × List Char) :=
  match decStr l with
  | some p =>
    match decStr p.2 with
    | some q => some ((p.1, q.1), q.2)
    | none => none
  | none => none

/-- Encoding of a label selector. -/
def encLS (ls : LabelSelector) : List Char := encList encPairStr ls.matchLabels

/-- Decoder for `encLS`. -/
def decLS (l : List Char) : Option (LabelSelector × List Char) :=
  (decList decPairStr l).map (fun p => (LabelSelector.mk p.1, p.2))

/-- Encoding of a topology-spread constraint. -/
def encConstraint (c : TopologySpreadConstraint) : List Char :=
  encInt c.maxSkew ++ encStr c.topologyKey ++ encStr c.whenUnsatisfiable ++
    encOpt encLS c.labelSelector ++ encList encStr c.matchLabelKeys

/-- Decoder for `encConstraint`. -/
def decConstraint (l : List Char) : Option (TopologySpreadConstraint × List Char) :=
  match decInt l with
  | none => none
  | some p1 =>
    match decStr p1.2 with
    | none => none
    | some p2 =>
      match decStr p2.2 with
      | none => none
      | some p3 =>
        match decOpt decLS p3.2 with
        | none => none
        | some p4 =>
          match decList decStr p4.2 with
          | none => none
          | some p5 => some (⟨p1.1, p2.1, p3.1, p4.1, p5.1⟩, p5.2)

/-- Encoding of a pod-affinity term. -/
def encTerm (t : PodAffinityTerm) : List Char :=
  encOpt encLS t.labelSelector ++ encStr t.topologyKey ++ encList encStr t.matchLabelKeys

/-- Decoder for `encTerm`. -/
def decTerm (l : List Char) : Option (PodAffinityTerm × List Char) :=
  match decOpt decLS l with
  | none => none
  | some p1 =>
    match decStr p1.2 with
    | none => none
    | some p2 =>
      match decList decStr p2.2 with
      | none => none
      | some p3 => some (⟨p1.1, p2.1, p3.1⟩, p3.2)

/-- Encoding of a weighted pod-affinity term. -/
def encWeighted (w : WeightedPodAffinityTerm) : List Char :=
  encInt w.weight ++ encTerm w.podAffinityTerm

/-- Decoder for `encWeighted`. -/
def decWeighted (l : List Char) : Option (WeightedPodAffinityTerm × List Char) :=
  match decInt l with
  | none => none
  | some p1 =>
    match decTerm p1.2 with
    | none => none
    | some p2 => some (⟨p1.1, p2.1⟩, p2.2)

/-- Encoding of a pod-affinity block. -/
def encPA (p : PodAffinity) : List Char :=
  encList encTerm p.requiredDuringSchedulingIgnoredDuringExecution ++
    encList encWeighted p.preferredDuringSchedulingIgnoredDuringExecution

/-- Decoder for `encPA`. -/
def decPA (l : List Char) : Option (PodAffinity × List Char) :=
  match decList decTerm l with
  | none => none
  | some p1 =>
    match decList decWeighted p1.2 with
    | none => none
    | some p2 => some (⟨p1.1, p2.1⟩, p2.2)

/-- Encoding of a pod-anti-affinity block. -/
def encPAA (p : PodAntiAffinity) : List Char :=
  encList encTerm p.requiredDuringSchedulingIgnoredDuringExecution ++
    encList encWeighted p.preferredDuringSchedulingIgnoredDuringExecution

/-- Decoder for `encPAA`. -/
def decPAA (l : List Char) : Option (PodAntiAffinity × List Char) :=
  match decList decTerm l with
  | none => none
  | some p1 =>
    match decList decWeighted p1.2 with
    | none => none
    | some p2 => some (⟨p1.1, p2.1⟩, p2.2)

/-- Encoding of the affinity block. -/
def encAffinity (a : Affinity) : List Char :=
  encOpt encPA a.podAffinity ++ encOpt encPAA a.podAntiAffinity

/-- Decoder for `encAffinity`. -/
def decAffinity (l : List Char) : Option (Affinity × List Char) :=
  match decOpt decPA l with
  | none => none
  | some p1 =>
    match decOpt decPAA p1.2 with
    | none => none
    | some p2 => some (⟨p1.1, p2.1⟩, p2.2)

/-- Encoding of the whole Topology spec. -/
def encSpec (s : TopologySpec) : List Char :=
  encOpt (encList encConstraint) s.topologySpreadConstraints ++
    encOpt encAffinity s.affinity

/-- Decoder for `encSpec`. -/
def decSpec (l : List Char) : Option (TopologySpec × List Char) :=
  match decOpt (decList decConstraint) l with
  | none => none
  | some p1 =>
    match decOpt decAffinity p1.2 with
    | none => none
    | some p2 => some (⟨p1.1, p2.1⟩, p2.2)

/-- Modelled from the spec: `util.ObjectHash` (lib-common code outside this
source set) produces "a deterministic digest of the target's
constraint/affinity specification, used by callers to detect whether the
reconciled configuration changed".  It is modelled as an injective
serialization of the spec so that equal specs hash equal and differing
specs hash differently. -/
def specHash (s : TopologySpec) : String := String.mk (encSpec s)

/-- The `util.ObjectHash` call as it appears at line 144: either the injected
marshalling failure (paired with the empty-string hash the Go function
returns on error) or the digest. -/
def objectHash (faults : Faults) (s : TopologySpec) : Except GoError String :=
  match faults.hashErr with
  | some msg => Except.error (GoError.hashErr msg)
  | none => Except.ok (specHash s)

/-- The observable outcome of one `EnsureTopologyRef` run: the three Go
return values, the trace of store calls, and the post-state of the store. -/
structure EnsureResult where
  topology : Option TopologyObj
  hash : String
  err : Option GoError
  calls : List StoreCall
  store : Option TopologyObj
deriving DecidableEq, Repr

/-- The observable outcome of one `EnsureDeletedTopologyRef` run (the
`ctrl.Result` value is always the zero value, so only the error remains). -/
structure DeleteResult where
  err : Option GoError
  calls : List StoreCall
  store : Option TopologyObj
deriving DecidableEq, Repr

/-- Tail of `EnsureTopologyRef` (lines 76-149): deep copy, default-fill,
hash.  The copy is a value in this embedding, so `DeepCopy` is the
identity on the fetched value and the defaults land on a fresh record. -/
def finishEnsure (faults : Faults) (topology : TopologyObj)
    (dls : LabelSelector) (dmlk : List String)
    (calls : List StoreCall) (store : Option TopologyObj) : EnsureResult :=
  let copy := { topology with spec := applyDefaults dls dmlk topology.spec }
  { topology := some copy,
    hash :=
      match objectHash faults copy.spec with
      | Except.error _ => ""
      | Except.ok hsh => hsh,
    err :=
      match objectHash faults copy.spec with
      | Except.error e => some e
      | Except.ok _ => none,
    calls := calls,
    store := store }

/-- Embeds `EnsureTopologyRef` (topology.go lines 40-150): validate the reference,
fetch, add the finalizer and persist when newly added, then default-fill a
copy and hash it. -/
def ensureTopologyRef (faults : Faults) (store : Option TopologyObj)
    (h : Helper) (topologyRef : Option TopologyRef) (finalizer : String)
    (dls : LabelSelector) (dmlk : List String) : EnsureResult :=
  match topologyRef with
  | none => ⟨none, "", some (GoError.invalidRef invalidRefMsg), [], store⟩
  | some ref =>
    if ref.name = "" ∨ ref.ns = "" then
      ⟨none, "", some (GoError.invalidRef invalidRefMsg), [], store⟩
    else
      match getTopologyByName faults store with
      | Except.error e =>
        ⟨none, "", some (GoError.k8s e), [StoreCall.fetch ref.name ref.ns], store⟩
      | Except.ok topology =>
        let fin := addFinalizer topology (topoToken h finalizer)
        if fin.2 then
          match clientUpdate faults store fin.1 with
          | (Except.error e, st) =>
            ⟨some fin.1, "", some (GoError.k8s e),
              [StoreCall.fetch ref.name ref.ns, StoreCall.update fin.1], st⟩
          | (Except.ok _, st) =>
            finishEnsure faults fin.1 dls dmlk
              [StoreCall.fetch ref.name ref.ns, StoreCall.update fin.1] st
        else
          finishEnsure faults fin.1 dls dmlk
            [StoreCall.fetch ref.name ref.ns] store

/-- Embeds `EnsureDeletedTopologyRef` (topology.go lines 154-188): validate the
reference (invalid is a successful no-op), fetch tolerating not-found,
remove the finalizer when present and persist, tolerating a not-found
error from the persist. -/
def ensureDeletedTopologyRef (faults : Faults) (store : Option TopologyObj)
    (h : Helper) (topologyRef : Option TopologyRef) (finalizer : String) :
    DeleteResult :=
  match topologyRef with
  | none => ⟨none, [], store⟩
  | some ref =>
    if ref.name = "" ∨ ref.ns = "" then ⟨none, [], store⟩
    else
      match getTopologyByName faults store with
      | Except.error e =>
        if e = K8sError.notFound then ⟨none, [StoreCall.fetch ref.name ref.ns], store⟩
        else ⟨some (GoError.k8s e), [StoreCall.fetch ref.name ref.ns], store⟩
      | Except.ok topology =>
        let fin := removeFinalizer topology (topoToken h finalizer)
        if fin.2 then
          match clientUpdate faults store fin.1 with
          | (Except.error e, st) =>
            if e = K8sError.notFound then
              ⟨none, [StoreCall.fetch ref.name ref.ns, StoreCall.update fin.1], st⟩
            else
              ⟨some (GoError.k8s e),
                [StoreCall.fetch ref.name ref.ns, StoreCall.update fin.1], st⟩
          | (Except.ok _, st) =>
            ⟨none, [StoreCall.fetch ref.name ref.ns, StoreCall.update fin.1], st⟩
        else ⟨none, [StoreCall.fetch ref.name ref.ns], store⟩

/-- Recognizer for update calls in a trace. -/
def isUpdateCall : StoreCall → Bool
  | StoreCall.update _ => true
  | StoreCall.fetch _ _ => false

/-- Number of update calls in a trace. -/
def updateCount (calls : List StoreCall) : Nat :=
  (calls.filter isUpdateCall).length

/-- The object produced by a fresh `AddFinalizer`: same object with the
token appended. -/
def withToken (obj : TopologyObj) (tok : String) : TopologyObj :=
  { obj with finalizers := obj.finalizers ++ [tok] }

/-- Sample owner helper used by the concrete witness instantiations. -/
def sampleHelper : Helper := ⟨"svc-operator"⟩

/-- Fault-free environment. -/
def noFaults : Faults := ⟨none, none, none⟩

/-- Sample valid reference. -/
def sampleRef : TopologyRef := ⟨"topo1", "ns1"⟩

/-- Sample default label selector. -/
def sampleDLS : LabelSelector := ⟨[("app", "svc")]⟩

/-- Sample default match-label keys. -/
def sampleKeys : List String := ["pod-template-hash"]

/-- Sample constraint with both defaultable fields unset. -/
def sampleConstraint : TopologySpreadConstraint := ⟨1, "zone", "DoNotSchedule", none, []⟩

/-- Sample constraint with both defaultable fields explicitly set. -/
def sampleSetConstraint : TopologySpreadConstraint :=
  ⟨1, "zone", "DoNotSchedule", some ⟨[("tier", "db")]⟩, ["k1"]⟩

/-- Sample pod-affinity term. -/
def sampleTerm : PodAffinityTerm := ⟨none, "zone", []⟩

/-- Sample weighted pod-affinity term. -/
def sampleWeighted : WeightedPodAffinityTerm := ⟨1, sampleTerm⟩

/-- Sample stored Topology object with one defaultable constraint. -/
def sampleObj : TopologyObj := ⟨"topo1", "ns1", [], ⟨some [sampleConstraint], none⟩⟩

/-- Sample stored Topology object with one explicitly set constraint. -/
def sampleObj2 : TopologyObj := ⟨"topo1", "ns1", [], ⟨some [sampleSetConstraint], none⟩⟩

/-- The object a fault-free run on `sampleObj` returns. -/
def sampleOut1 : TopologyObj :=
  { withToken sampleObj (topoToken sampleHelper "myservice") with
      spec := applyDefaults sampleDLS sampleKeys sampleObj.spec }

/-- The object a fault-free run on `sampleObj2` returns. -/
def sampleOut2 : TopologyObj :=
  { withToken sampleObj2 (topoToken sampleHelper "myservice") with
      spec := applyDefaults sampleDLS sampleKeys sampleObj2.spec }

/-- Decoding a `encNat` image recovers the number and the remainder. -/
theorem decNat_encNat (n : Nat) (rest : List Char) :
    decNat (encNat n ++ rest) = some (n, rest) := by
  induction n with
  | zero => rfl
  | succ k ih =>
    have h1 : encNat (k + 1) ++ rest = '1' :: (encNat k ++ rest) := by
      simp [encNat, List.replicate_succ]
    rw [h1]
    simp [decNat, ih]

/-- Decoding a `encStr` image recovers the string and the remainder. -/
theorem decStr_encStr (s : String) (rest : List Char) :
    decStr (encStr s ++ rest) = some (s, rest) := by
  obtain ⟨d⟩ := s
  unfold decStr encStr
  rw [List.append_assoc, decNat_encNat]
  simp [List.take_left, List.drop_left, Nat.le_add_right]

/-- Decoding a `encInt` image recovers the integer and the remainder. -/
theorem decInt_encInt (i : Int) (rest : List Char) :
    decInt (encInt i ++ rest) = some (i, rest) := by
  cases i with
  | ofNat n => simp [encInt, decInt, decNat_encNat]
  | negSucc n => simp [encInt, decInt, decNat_encNat]

/-- Decoding an `encOpt` image recovers the option, given a faithful
component decoder. -/
theorem decOpt_encOpt (enc : α → List Char) (dec : List Char → Option (α × List Char))
    (henc : ∀ a rest, dec (enc a ++ rest) = some (a, rest))
    (o : Option α) (rest : List Char) :
    decOpt dec (encOpt enc o ++ rest) = some (o, rest) := by
  cases o with
  | none => simp [encOpt, decOpt]
  | some a => simp [encOpt, decOpt, henc]

/-- Decoding `xs.length` elements from the concatenated element encodings
recovers the list, given a faithful component decoder. -/
theorem decTimes_flatten (enc : α → List Char) (dec : List Char → Option (α × List Char))
    (henc : ∀ a rest, dec (enc a ++ rest) = some (a, rest)) :
    ∀ (xs : List α) (rest : List Char),
      decTimes dec xs.length ((xs.map enc).flatten ++ rest) = some (xs, rest) := by
  intro xs
  induction xs with
  | nil => intro rest; rfl
  | cons a as ih =>
    intro rest
    simp only [List.map_cons, List.flatten_cons, List.length_cons, List.append_assoc]
    simp [decTimes, henc, ih]

/-- Decoding an `encList` image recovers the list, given a faithful
component decoder. -/
theorem decList_encList (enc : α → List Char) (dec : List Char → Option (α × List Char))
    (henc : ∀ a rest, dec (enc a ++ rest) = some (a, rest))
    (xs : List α) (rest : List Char) :
    decList dec (encList enc xs ++ rest) = some (xs, rest) := by
  unfold decList encList
  rw [List.append_assoc, decNat_encNat]
  exact decTimes_flatten enc dec henc xs rest

/-- Roundtrip for string pairs. -/
theorem decPairStr_encPairStr (p : String × String) (rest : List Char) :
    decPairStr (encPairStr p ++ rest) = some (p, rest) := by
  obtain ⟨a, b⟩ := p
  simp [encPairStr, decPairStr, List.append_assoc, decStr_encStr]

/-- Roundtrip for label selectors. -/
theorem decLS_encLS (ls : LabelSelector) (rest : List Char) :
    decLS (encLS ls ++ rest) = some (ls, rest) := by
  obtain ⟨ml⟩ := ls
  simp [encLS, decLS, decList_encList encPairStr decPairStr decPairStr_encPairStr]

/-- Roundtrip for topology-spread constraints. -/
theorem decConstraint_encConstraint (c : TopologySpreadConstraint) (rest : List Char) :
    decConstraint (encConstraint c ++ rest) = some (c, rest) := by
  obtain ⟨sk, tk, wu, ls, ks⟩ := c
  simp [encConstraint, decConstraint, List.append_assoc, decInt_encInt, decStr_encStr,
    decOpt_encOpt encLS decLS decLS_encLS, decList_encList encStr decStr decStr_encStr]

/-- Roundtrip for pod-affinity terms. -/
theorem decTerm_encTerm (t : PodAffinityTerm) (rest : List Char) :
    decTerm (encTerm t ++ rest) = some (t, rest) := by
  obtain ⟨ls, tk, ks⟩ := t
  simp [encTerm, decTerm, List.append_assoc, decStr_encStr,
    decOpt_encOpt encLS decLS decLS_encLS, decList_encList encStr decStr decStr_encStr]

/-- Roundtrip for weighted pod-affinity terms. -/
theorem decWeighted_encWeighted (w : WeightedPodAffinityTerm) (rest : List Char) :
    decWeighted (encWeighted w ++ rest) = some (w, rest) := by
  obtain ⟨wt, t⟩ := w
  simp [encWeighted, decWeighted, List.append_assoc, decInt_encInt, decTerm_encTerm]

/-- Roundtrip for pod-affinity blocks. -/
theorem decPA_encPA (p : PodAffinity) (rest : List Char) :
    decPA (encPA p ++ rest) = some (p, rest) := by
  obtain ⟨req, pref⟩ := p
  simp [encPA, decPA, List.append_assoc,
    decList_encList encTerm decTerm decTerm_encTerm,
    decList_encList encWeighted decWeighted decWeighted_encWeighted]

/-- Roundtrip for pod-anti-affinity blocks. -/
theorem decPAA_encPAA (p : PodAntiAffinity) (rest : List Char) :
    decPAA (encPAA p ++ rest) = some (p, rest) := by
  obtain ⟨req, pref⟩ := p
  simp [encPAA, decPAA, List.append_assoc,
    decList_encList encTerm decTerm decTerm_encTerm,
    decList_encList encWeighted decWeighted decWeighted_encWeighted]

/-- Roundtrip for affinity blocks. -/
theorem decAffinity_encAffinity (a : Affinity) (rest : List Char) :
    decAffinity (encAffinity a ++ rest) = some (a, rest) := by
  obtain ⟨pa, paa⟩ := a
  simp [encAffinity, decAffinity, List.append_assoc,
    decOpt_encOpt encPA decPA decPA_encPA, decOpt_encOpt encPAA decPAA decPAA_encPAA]

/-- Roundtrip for the whole spec. -/
theorem decSpec_encSpec (s : TopologySpec) (rest : List Char) :
    decSpec (encSpec s ++ rest) = some (s, rest) := by
  obtain ⟨cs, af⟩ := s
  simp [encSpec, decSpec, List.append_assoc,
    decOpt_encOpt (encList encConstraint) (decList decConstraint)
      (decList_encList encConstraint decConstraint decConstraint_encConstraint),
    decOpt_encOpt encAffinity decAffinity decAffinity_encAffinity]

/-- The spec serialization is injective. -/
theorem encSpec_injective (s1 s2 : TopologySpec) (h : encSpec s1 = encSpec s2) :
    s1 = s2 := by
  have h1 := decSpec_encSpec s1 []
  have h2 := decSpec_encSpec s2 []
  rw [h] at h1
  rw [h1] at h2
  simpa using h2

/-- The content hash is injective on specs. -/
theorem specHash_injective (s1 s2 : TopologySpec) (h : specHash s1 = specHash s2) :
    s1 = s2 := by
  apply encSpec_injective
  have hd := congrArg String.data h
  simpa [specHash] using hd

/-- C3: for a reference that is nil or has an empty name or empty
namespace, `ensureTopologyRef` returns the invalid-reference error and
makes no store calls (no fetch, no update), while
`ensureDeletedTopologyRef` returns a nil error and makes no store calls;
the store is untouched in both cases. -/
theorem invalid_ref_behavior (faults : Faults) (store : Option TopologyObj)
    (h : Helper) (ref : Option TopologyRef) (finalizer : String)
    (dls : LabelSelector) (dmlk : List String)
    (hinv : ref = none ∨ ∃ r, ref = some r ∧ (r.name = "" ∨ r.ns = "")) :
    ((ensureTopologyRef faults store h ref finalizer dls dmlk).err =
        some (GoError.invalidRef invalidRefMsg) ∧
      (ensureTopologyRef faults store h ref finalizer dls dmlk).calls = [] ∧
      (ensureTopologyRef faults store h ref finalizer dls dmlk).topology = none ∧
      (ensureTopologyRef faults store h ref finalizer dls dmlk).store = store) ∧
    ((ensureDeletedTopologyRef faults store h ref finalizer).err = none ∧
      (ensureDeletedTopologyRef faults store h ref finalizer).calls = [] ∧
      (ensureDeletedTopologyRef faults store h ref finalizer).store = store) := by
  rcases hinv with rfl | ⟨r, rfl, hr⟩
  · simp [ensureTopologyRef, ensureDeletedTopologyRef]
  · rcases hr with h1 | h2
    · simp [ensureTopologyRef, ensureDeletedTopologyRef, h1]
    · simp [ensureTopologyRef, ensureDeletedTopologyRef, h2]

/-- Witness for C3 at a reference with empty name. -/
theorem invalid_ref_behavior_witness :
    ((ensureTopologyRef noFaults none sampleHelper (some ⟨"", "ns1"⟩) "myservice"
        sampleDLS sampleKeys).err = some (GoError.invalidRef invalidRefMsg) ∧
      (ensureTopologyRef noFaults none sampleHelper (some ⟨"", "ns1"⟩) "myservice"
        sampleDLS sampleKeys).calls = [] ∧
      (ensureTopologyRef noFaults none sampleHelper (some ⟨"", "ns1"⟩) "myservice"
        sampleDLS sampleKeys).topology = none ∧
      (ensureTopologyRef noFaults none sampleHelper (some ⟨"", "ns1"⟩) "myservice"
        sampleDLS sampleKeys).store = none) ∧
    ((ensureDeletedTopologyRef noFaults none sampleHelper (some ⟨"", "ns1"⟩) "myservice").err = none ∧
      (ensureDeletedTopologyRef noFaults none sampleHelper (some ⟨"", "ns1"⟩) "myservice").calls = [] ∧
      (ensureDeletedTopologyRef noFaults none sampleHelper (some ⟨"", "ns1"⟩) "myservice").store = none) :=
  invalid_ref_behavior noFaults none sampleHelper (some ⟨"", "ns1"⟩) "myservice"
    sampleDLS sampleKeys (Or.inr ⟨⟨"", "ns1"⟩, rfl, Or.inl rfl⟩)

/-- C6: when the fetch of the target object fails (including not-found),
the fetch error is returned verbatim, no finalizer is added, no update is
issued, no defaulting or hashing is performed, and the store is
untouched. -/
theorem ensureTopologyRef_fetch_error (faults : Faults) (store : Option TopologyObj)
    (h : Helper) (r : TopologyRef) (finalizer : String)
    (dls : LabelSelector) (dmlk : List String) (e : K8sError)
    (hn : ¬(r.name = "" ∨ r.ns = ""))
    (hfetch : getTopologyByName faults store = Except.error e) :
    ensureTopologyRef faults store h (some r) finalizer dls dmlk =
      ⟨none, "", some (GoError.k8s e), [StoreCall.fetch r.name r.ns], store⟩ := by
  simp [ensureTopologyRef, hn, hfetch]

/-- Witness for C6: fetch of an absent object returns not-found. -/
theorem ensureTopologyRef_fetch_error_witness :
    ¬(sampleRef.name = "" ∨ sampleRef.ns = "") ∧
    getTopologyByName noFaults none = Except.error K8sError.notFound ∧
    ensureTopologyRef noFaults none sampleHelper (some sampleRef) "myservice"
        sampleDLS sampleKeys =
      ⟨none, "", some (GoError.k8s K8sError.notFound),
        [StoreCall.fetch sampleRef.name sampleRef.ns], none⟩ :=
  ⟨by decide, rfl,
    ensureTopologyRef_fetch_error noFaults none sampleHelper sampleRef "myservice"
      sampleDLS sampleKeys K8sError.notFound (by decide) rfl⟩

/-- Branch evaluation: valid reference, fetch ok, token already present:
no update call, finish on the fetched object. -/
theorem ensure_eval_present (faults : Faults) (obj : TopologyObj) (h : Helper)
    (r : TopologyRef) (finalizer : String) (dls : LabelSelector) (dmlk : List String)
    (hv : ¬(r.name = "" ∨ r.ns = "")) (hfe : faults.fetchErr = none)
    (htok : topoToken h finalizer ∈ obj.finalizers) :
    ensureTopologyRef faults (some obj) h (some r) finalizer dls dmlk =
      finishEnsure faults obj dls dmlk [StoreCall.fetch r.name r.ns] (some obj) := by
  simp [ensureTopologyRef, getTopologyByName, hfe, addFinalizer, htok, hv]

/-- Branch evaluation: valid reference, fetch ok, token absent, update
succeeds: one update call persisting the token, finish on the updated
object. -/
theorem ensure_eval_absent_ok (faults : Faults) (obj : TopologyObj) (h : Helper)
    (r : TopologyRef) (finalizer : String) (dls : LabelSelector) (dmlk : List String)
    (hv : ¬(r.name = "" ∨ r.ns = "")) (hfe : faults.fetchErr = none)
    (htok : topoToken h finalizer ∉ obj.finalizers)
    (hue : faults.updateErr = none) :
    ensureTopologyRef faults (some obj) h (some r) finalizer dls dmlk =
      finishEnsure faults (withToken obj (topoToken h finalizer)) dls dmlk
        [StoreCall.fetch r.name r.ns,
          StoreCall.update (withToken obj (topoToken h finalizer))]
        (some (withToken obj (topoToken h finalizer))) := by
  simp [ensureTopologyRef, getTopologyByName, hfe, addFinalizer, htok, hv,
    clientUpdate, hue, withToken]

/-- Branch evaluation: valid reference, fetch ok, token absent, update
fails: the update error is returned with the empty hash, the
not-yet-defaulted object, and an unchanged store. -/
theorem ensure_eval_absent_err (faults : Faults) (obj : TopologyObj) (h : Helper)
    (r : TopologyRef) (finalizer : String) (dls : LabelSelector) (dmlk : List String)
    (e : K8sError)
    (hv : ¬(r.name = "" ∨ r.ns = "")) (hfe : faults.fetchErr = none)
    (htok : topoToken h finalizer ∉ obj.finalizers)
    (hue : faults.updateErr = some e) :
    ensureTopologyRef faults (some obj) h (some r) finalizer dls dmlk =
      ⟨some (withToken obj (topoToken h finalizer)), "", some (GoError.k8s e),
        [StoreCall.fetch r.name r.ns,
          StoreCall.update (withToken obj (topoToken h finalizer))],
        some obj⟩ := by
  simp [ensureTopologyRef, getTopologyByName, hfe, addFinalizer, htok, hv,
    clientUpdate, hue, withToken]

/-- Evaluation of the finish step when hashing succeeds. -/
theorem finishEnsure_eval_ok (faults : Faults) (topology : TopologyObj)
    (dls : LabelSelector) (dmlk : List String) (calls : List StoreCall)
    (store : Option TopologyObj) (hh : faults.hashErr = none) :
    finishEnsure faults topology dls dmlk calls store =
      ⟨some { topology with spec := applyDefaults dls dmlk topology.spec },
        specHash (applyDefaults dls dmlk topology.spec), none, calls, store⟩ := by
  simp [finishEnsure, objectHash, hh]

/-- Evaluation of the finish step when hashing fails. -/
theorem finishEnsure_eval_err (faults : Faults) (topology : TopologyObj)
    (dls : LabelSelector) (dmlk : List String) (calls : List StoreCall)
    (store : Option TopologyObj) (msg : String) (hh : faults.hashErr = some msg) :
    finishEnsure faults topology dls dmlk calls store =
      ⟨some { topology with spec := applyDefaults dls dmlk topology.spec },
        "", some (GoError.hashErr msg), calls, store⟩ := by
  simp [finishEnsure, objectHash, hh]

/-- The finish step records exactly the calls it is handed. -/
theorem finishEnsure_calls (faults : Faults) (topology : TopologyObj)
    (dls : LabelSelector) (dmlk : List String) (calls : List StoreCall)
    (store : Option TopologyObj) :
    (finishEnsure faults topology dls dmlk calls store).calls = calls := rfl

/-- The finish step leaves the store untouched. -/
theorem finishEnsure_store (faults : Faults) (topology : TopologyObj)
    (dls : LabelSelector) (dmlk : List String) (calls : List StoreCall)
    (store : Option TopologyObj) :
    (finishEnsure faults topology dls dmlk calls store).store = store := rfl

/-- The finish step returns the defaulted copy. -/
theorem finishEnsure_topology (faults : Faults) (topology : TopologyObj)
    (dls : LabelSelector) (dmlk : List String) (calls : List StoreCall)
    (store : Option TopologyObj) :
    (finishEnsure faults topology dls dmlk calls store).topology =
      some { topology with spec := applyDefaults dls dmlk topology.spec } := rfl

/-- C4: on every execution at most one update call is issued; every update
payload carries the spec of the stored object unchanged (defaults are
never in a persisted payload); and whatever object the store holds after
the call has the same spec it held before, so default-injection is never
persisted. -/
theorem ensureTopologyRef_at_most_one_update (faults : Faults)
    (store : Option TopologyObj) (h : Helper) (ref : Option TopologyRef)
    (finalizer : String) (dls : LabelSelector) (dmlk : List String) :
    updateCount (ensureTopologyRef faults store h ref finalizer dls dmlk).calls ≤ 1 ∧
    (∀ o, StoreCall.update o ∈
        (ensureTopologyRef faults store h ref finalizer dls dmlk).calls →
      ∃ obj, store = some obj ∧ o.spec = obj.spec) ∧
    (∀ obj o, store = some obj →
      (ensureTopologyRef faults store h ref finalizer dls dmlk).store = some o →
      o.spec = obj.spec) := by
  have hframe : ∀ (obj o : TopologyObj), some obj = some o → o.spec = obj.spec := by
    intro obj o hs
    rw [← Option.some.inj hs]
  cases ref with
  | none =>
    refine ⟨by simp [ensureTopologyRef, updateCount], ?_, ?_⟩
    · intro o ho
      simp [ensureTopologyRef] at ho
    · intro obj o hs hs2
      simp [ensureTopologyRef] at hs2
      rw [hs] at hs2
      exact hframe obj o hs2
  | some r =>
    by_cases hv : r.name = "" ∨ r.ns = ""
    · refine ⟨by simp [ensureTopologyRef, hv, updateCount], ?_, ?_⟩
      · intro o ho
        simp [ensureTopologyRef, hv] at ho
      · intro obj o hs hs2
        simp [ensureTopologyRef, hv] at hs2
        rw [hs] at hs2
        exact hframe obj o hs2
    · cases hfe : faults.fetchErr with
      | some e =>
        have heval : ensureTopologyRef faults store h (some r) finalizer dls dmlk =
            ⟨none, "", some (GoError.k8s e), [StoreCall.fetch r.name r.ns], store⟩ := by
          simp [ensureTopologyRef, getTopologyByName, hfe, hv]
        rw [heval]
        refine ⟨by simp [updateCount, isUpdateCall], ?_, ?_⟩
        · intro o ho
          simp at ho
        · intro obj o hs hs2
          rw [hs] at hs2
          exact hframe obj o hs2
      | none =>
        cases store with
        | none =>
          have heval : ensureTopologyRef faults none h (some r) finalizer dls dmlk =
              ⟨none, "", some (GoError.k8s K8sError.notFound),
                [StoreCall.fetch r.name r.ns], none⟩ := by
            simp [ensureTopologyRef, getTopologyByName, hfe, hv]
          rw [heval]
          refine ⟨by simp [updateCount, isUpdateCall], ?_, ?_⟩
          · intro o ho
            simp at ho
          · intro obj o hs
            simp at hs
        | some obj0 =>
          by_cases htok : topoToken h finalizer ∈ obj0.finalizers
          · rw [ensure_eval_present faults obj0 h r finalizer dls dmlk hv hfe htok]
            refine ⟨?_, ?_, ?_⟩
            · rw [finishEnsure_calls]
              simp [updateCount, isUpdateCall]
            · intro o ho
              rw [finishEnsure_calls] at ho
              simp at ho
            · intro obj o hs hs2
              rw [finishEnsure_store] at hs2
              have h1 := Option.some.inj hs
              have h2 := Option.some.inj hs2
              rw [← h2, ← h1]
          · cases hue : faults.updateErr with
            | some e =>
              rw [ensure_eval_absent_err faults obj0 h r finalizer dls dmlk e hv hfe htok hue]
              refine ⟨by simp [updateCount, isUpdateCall], ?_, ?_⟩
              · intro o ho
                simp at ho
                exact ⟨obj0, rfl, by rw [ho]; rfl⟩
              · intro obj o hs hs2
                have h1 := Option.some.inj hs
                have h2 := Option.some.inj hs2
                rw [← h2, ← h1]
            | none =>
              rw [ensure_eval_absent_ok faults obj0 h r finalizer dls dmlk hv hfe htok hue]
              refine ⟨?_, ?_, ?_⟩
              · rw [finishEnsure_calls]
                simp [updateCount, isUpdateCall]
              · intro o ho
                rw [finishEnsure_calls] at ho
                simp at ho
                exact ⟨obj0, rfl, by rw [ho]; rfl⟩
              · intro obj o hs hs2
                rw [finishEnsure_store] at hs2
                have h1 := Option.some.inj hs
                have h2 := Option.some.inj hs2
                rw [← h2, ← h1]
                rfl

/-- C5: the finalizer-persisting update always precedes default-injection:
every update payload still carries the fetched object's raw spec; an
update error is returned verbatim with the empty hash, the not-yet
defaulted object and no hashing; and when a later hash failure occurs
after a fresh finalizer write, the finalizer is already durable in the
store. -/
theorem ensureTopologyRef_update_before_defaults (faults : Faults)
    (obj : TopologyObj) (h : Helper) (r : TopologyRef) (finalizer : String)
    (dls : LabelSelector) (dmlk : List String)
    (hv : ¬(r.name = "" ∨ r.ns = "")) (hfe : faults.fetchErr = none) :
    (∀ o, StoreCall.update o ∈
        (ensureTopologyRef faults (some obj) h (some r) finalizer dls dmlk).calls →
      o.spec = obj.spec) ∧
    (∀ e, faults.updateErr = some e →
      topoToken h finalizer ∉ obj.finalizers →
      (ensureTopologyRef faults (some obj) h (some r) finalizer dls dmlk).err =
          some (GoError.k8s e) ∧
        (ensureTopologyRef faults (some obj) h (some r) finalizer dls dmlk).hash = "" ∧
        (ensureTopologyRef faults (some obj) h (some r) finalizer dls dmlk).topology =
          some (withToken obj (topoToken h finalizer)) ∧
        (withToken obj (topoToken h finalizer)).spec = obj.spec ∧
        (ensureTopologyRef faults (some obj) h (some r) finalizer dls dmlk).store =
          some obj) ∧
    (∀ msg, faults.updateErr = none → faults.hashErr = some msg →
      topoToken h finalizer ∉ obj.finalizers →
      (ensureTopologyRef faults (some obj) h (some r) finalizer dls dmlk).err =
          some (GoError.hashErr msg) ∧
        ∃ o2, (ensureTopologyRef faults (some obj) h (some r) finalizer dls dmlk).store =
            some o2 ∧ topoToken h finalizer ∈ o2.finalizers) := by
  refine ⟨?_, ?_, ?_⟩
  · intro o ho
    by_cases htok : topoToken h finalizer ∈ obj.finalizers
    · rw [ensure_eval_present faults obj h r finalizer dls dmlk hv hfe htok,
        finishEnsure_calls] at ho
      simp at ho
    · cases hue : faults.updateErr with
      | some e =>
        rw [ensure_eval_absent_err faults obj h r finalizer dls dmlk e hv hfe htok hue] at ho
        simp at ho
        rw [ho]
        rfl
      | none =>
        rw [ensure_eval_absent_ok faults obj h r finalizer dls dmlk hv hfe htok hue,
          finishEnsure_calls] at ho
        simp at ho
        rw [ho]
        rfl
  · intro e hue htok
    rw [ensure_eval_absent_err faults obj h r finalizer dls dmlk e hv hfe htok hue]
    exact ⟨rfl, rfl, rfl, rfl, rfl⟩
  · intro msg hue hh htok
    rw [ensure_eval_absent_ok faults obj h r finalizer dls dmlk hv hfe htok hue,
      finishEnsure_eval_err faults (withToken obj (topoToken h finalizer)) dls dmlk
        [StoreCall.fetch r.name r.ns,
          StoreCall.update (withToken obj (topoToken h finalizer))]
        (some (withToken obj (topoToken h finalizer))) msg hh]
    refine ⟨rfl, withToken obj (topoToken h finalizer), rfl, ?_⟩
    simp [withToken]

/-- Witness for C5: a run with an injected update failure on a token-free
object. -/
theorem ensureTopologyRef_update_before_defaults_witness :
    ¬(sampleRef.name = "" ∨ sampleRef.ns = "") ∧
    (Faults.mk none (some (K8sError.other "boom")) none).fetchErr = none ∧
    ((∀ o, StoreCall.update o ∈
        (ensureTopologyRef ⟨none, some (K8sError.other "boom"), none⟩ (some sampleObj)
          sampleHelper (some sampleRef) "myservice" sampleDLS sampleKeys).calls →
      o.spec = sampleObj.spec) ∧
    (∀ e, (Faults.mk none (some (K8sError.other "boom")) none).updateErr = some e →
      topoToken sampleHelper "myservice" ∉ sampleObj.finalizers →
      (ensureTopologyRef ⟨none, some (K8sError.other "boom"), none⟩ (some sampleObj)
          sampleHelper (some sampleRef) "myservice" sampleDLS sampleKeys).err =
          some (GoError.k8s e) ∧
        (ensureTopologyRef ⟨none, some (K8sError.other "boom"), none⟩ (some sampleObj)
          sampleHelper (some sampleRef) "myservice" sampleDLS sampleKeys).hash = "" ∧
        (ensureTopologyRef ⟨none, some (K8sError.other "boom"), none⟩ (some sampleObj)
          sampleHelper (some sampleRef) "myservice" sampleDLS sampleKeys).topology =
          some (withToken sampleObj (topoToken sampleHelper "myservice")) ∧
        (withToken sampleObj (topoToken sampleHelper "myservice")).spec = sampleObj.spec ∧
        (ensureTopologyRef ⟨none, some (K8sError.other "boom"), none⟩ (some sampleObj)
          sampleHelper (some sampleRef) "myservice" sampleDLS sampleKeys).store =
          some sampleObj) ∧
    (∀ msg, (Faults.mk none (some (K8sError.other "boom")) none).updateErr = none →
      (Faults.mk none (some (K8sError.other "boom")) none).hashErr = some msg →
      topoToken sampleHelper "myservice" ∉ sampleObj.finalizers →
      (ensureTopologyRef ⟨none, some (K8sError.other "boom"), none⟩ (some sampleObj)
          sampleHelper (some sampleRef) "myservice" sampleDLS sampleKeys).err =
          some (GoError.hashErr msg) ∧
        ∃ o2, (ensureTopologyRef ⟨none, some (K8sError.other "boom"), none⟩ (some sampleObj)
            sampleHelper (some sampleRef) "myservice" sampleDLS sampleKeys).store =
            some o2 ∧ topoToken sampleHelper "myservice" ∈ o2.finalizers)) :=
  ⟨by decide, rfl,
    ensureTopologyRef_update_before_defaults ⟨none, some (K8sError.other "boom"), none⟩
      sampleObj sampleHelper sampleRef "myservice" sampleDLS sampleKeys (by decide) rfl⟩

/-- C1: on the successful update path the returned object is the copy of
the fetched object with the fill-missing-only pass applied to its spec,
and the per-entry pass sets the label selector to the default only when
it is nil, sets the match-label keys to the default only when the list is
empty, leaves all other fields alone, and returns an entry with both
fields set completely unchanged — for spread constraints, for affinity
terms (required directly and preferred through the inner term), and this
pass is what is mapped over every constraint and every required and
preferred term under both pod-affinity and pod-anti-affinity. -/
theorem ensureTopologyRef_fill_missing_only (faults : Faults)
    (obj : TopologyObj) (h : Helper) (r : TopologyRef) (finalizer : String)
    (dls : LabelSelector) (dmlk : List String)
    (c : TopologySpreadConstraint) (t : PodAffinityTerm) (w : WeightedPodAffinityTerm)
    (hv : ¬(r.name = "" ∨ r.ns = "")) (hfe : faults.fetchErr = none)
    (hue : faults.updateErr = none) :
    (∃ tp, (ensureTopologyRef faults (some obj) h (some r) finalizer dls dmlk).topology =
        some tp ∧ tp.spec = applyDefaults dls dmlk obj.spec) ∧
    (c.labelSelector = none → (fillConstraint dls dmlk c).labelSelector = some dls) ∧
    (c.labelSelector ≠ none → (fillConstraint dls dmlk c).labelSelector = c.labelSelector) ∧
    (c.matchLabelKeys = [] → (fillConstraint dls dmlk c).matchLabelKeys = dmlk) ∧
    (c.matchLabelKeys ≠ [] → (fillConstraint dls dmlk c).matchLabelKeys = c.matchLabelKeys) ∧
    (fillConstraint dls dmlk c).maxSkew = c.maxSkew ∧
    (fillConstraint dls dmlk c).topologyKey = c.topologyKey ∧
    (fillConstraint dls dmlk c).whenUnsatisfiable = c.whenUnsatisfiable ∧
    (c.labelSelector ≠ none → c.matchLabelKeys ≠ [] → fillConstraint dls dmlk c = c) ∧
    (t.labelSelector = none → (fillTerm dls dmlk t).labelSelector = some dls) ∧
    (t.labelSelector ≠ none → (fillTerm dls dmlk t).labelSelector = t.labelSelector) ∧
    (t.matchLabelKeys = [] → (fillTerm dls dmlk t).matchLabelKeys = dmlk) ∧
    (t.matchLabelKeys ≠ [] → (fillTerm dls dmlk t).matchLabelKeys = t.matchLabelKeys) ∧
    (t.labelSelector ≠ none → t.matchLabelKeys ≠ [] → fillTerm dls dmlk t = t) ∧
    (fillWeighted dls dmlk w).weight = w.weight ∧
    (fillWeighted dls dmlk w).podAffinityTerm = fillTerm dls dmlk w.podAffinityTerm ∧
    (∀ cs, obj.spec.topologySpreadConstraints = some cs →
      (applyDefaults dls dmlk obj.spec).topologySpreadConstraints =
        some (cs.map (fillConstraint dls dmlk))) ∧
    (∀ a pa, obj.spec.affinity = some a → a.podAffinity = some pa →
      ∃ a2, (applyDefaults dls dmlk obj.spec).affinity = some a2 ∧
        a2.podAffinity = some
          ⟨pa.requiredDuringSchedulingIgnoredDuringExecution.map (fillTerm dls dmlk),
            pa.preferredDuringSchedulingIgnoredDuringExecution.map (fillWeighted dls dmlk)⟩) ∧
    (∀ a pa, obj.spec.affinity = some a → a.podAntiAffinity = some pa →
      ∃ a2, (applyDefaults dls dmlk obj.spec).affinity = some a2 ∧
        a2.podAntiAffinity = some
          ⟨pa.requiredDuringSchedulingIgnoredDuringExecution.map (fillTerm dls dmlk),
            pa.preferredDuringSchedulingIgnoredDuringExecution.map (fillWeighted dls dmlk)⟩) := by
  refine ⟨?_, ?_, ?_, ?_, ?_, ?_, ?_, ?_, ?_, ?_, ?_, ?_, ?_, ?_, ?_, ?_, ?_, ?_, ?_⟩
  · by_cases htok : topoToken h finalizer ∈ obj.finalizers
    · rw [ensure_eval_present faults obj h r finalizer dls dmlk hv hfe htok,
        finishEnsure_topology]
      exact ⟨_, rfl, rfl⟩
    · rw [ensure_eval_absent_ok faults obj h r finalizer dls dmlk hv hfe htok hue,
        finishEnsure_topology]
      exact ⟨_, rfl, rfl⟩
  · obtain ⟨sk, tk, wu, ls, ks⟩ := c
    cases ls <;> cases ks <;> simp [fillConstraint]
  · obtain ⟨sk, tk, wu, ls, ks⟩ := c
    cases ls <;> cases ks <;> simp [fillConstraint]
  · obtain ⟨sk, tk, wu, ls, ks⟩ := c
    cases ls <;> cases ks <;> simp [fillConstraint]
  · obtain ⟨sk, tk, wu, ls, ks⟩ := c
    cases ls <;> cases ks <;> simp [fillConstraint]
  · obtain ⟨sk, tk, wu, ls, ks⟩ := c
    cases ls <;> cases ks <;> simp [fillConstraint]
  · obtain ⟨sk, tk, wu, ls, ks⟩ := c
    cases ls <;> cases ks <;> simp [fillConstraint]
  · obtain ⟨sk, tk, wu, ls, ks⟩ := c
    cases ls <;> cases ks <;> simp [fillConstraint]
  · obtain ⟨sk, tk, wu, ls, ks⟩ := c
    cases ls <;> cases ks <;> simp [fillConstraint]
  · obtain ⟨ls, tk, ks⟩ := t
    cases ls <;> cases ks <;> simp [fillTerm]
  · obtain ⟨ls, tk, ks⟩ := t
    cases ls <;> cases ks <;> simp [fillTerm]
  · obtain ⟨ls, tk, ks⟩ := t
    cases ls <;> cases ks <;> simp [fillTerm]
  · obtain ⟨ls, tk, ks⟩ := t
    cases ls <;> cases ks <;> simp [fillTerm]
  · obtain ⟨ls, tk, ks⟩ := t
    cases ls <;> cases ks <;> simp [fillTerm]
  · rfl
  · rfl
  · intro cs hcs
    simp [applyDefaults, hcs]
  · intro a pa ha hpa
    refine ⟨fillAffinity dls dmlk a, ?_, ?_⟩
    · simp [applyDefaults, ha]
    · simp [fillAffinity, hpa, fillPodAffinity]
  · intro a pa ha hpa
    refine ⟨fillAffinity dls dmlk a, ?_, ?_⟩
    · simp [applyDefaults, ha]
    · simp [fillAffinity, hpa, fillPodAntiAffinity]

/-- Witness for C1: the successful-path conjunct at a concrete run. -/
theorem ensureTopologyRef_fill_missing_only_witness :
    ∃ tp, (ensureTopologyRef noFaults (some sampleObj) sampleHelper (some sampleRef)
        "myservice" sampleDLS sampleKeys).topology = some tp ∧
      tp.spec = applyDefaults sampleDLS sampleKeys sampleObj.spec :=
  (ensureTopologyRef_fill_missing_only noFaults sampleObj sampleHelper sampleRef
    "myservice" sampleDLS sampleKeys sampleSetConstraint sampleTerm sampleWeighted
    (by decide) rfl rfl).1

/-- C2: the persisting update is issued iff the finalizer token was not
already present on the fetched object; and after a successful first call
on a token-free object, a second call with the same reference and suffix
against the persisted object issues no update, makes only the fetch call,
and returns a nil error. -/
theorem ensureTopologyRef_finalizer_idempotent (obj : TopologyObj) (h : Helper)
    (r : TopologyRef) (finalizer : String) (dls : LabelSelector) (dmlk : List String)
    (hv : ¬(r.name = "" ∨ r.ns = "")) :
    ((∃ o, StoreCall.update o ∈
        (ensureTopologyRef noFaults (some obj) h (some r) finalizer dls dmlk).calls) ↔
      topoToken h finalizer ∉ obj.finalizers) ∧
    (topoToken h finalizer ∉ obj.finalizers →
      (ensureTopologyRef noFaults (some obj) h (some r) finalizer dls dmlk).err = none ∧
      (ensureTopologyRef noFaults (some obj) h (some r) finalizer dls dmlk).store =
        some (withToken obj (topoToken h finalizer)) ∧
      (ensureTopologyRef noFaults (some (withToken obj (topoToken h finalizer)))
          h (some r) finalizer dls dmlk).err = none ∧
      (ensureTopologyRef noFaults (some (withToken obj (topoToken h finalizer)))
          h (some r) finalizer dls dmlk).calls = [StoreCall.fetch r.name r.ns]) := by
  have htok2 : topoToken h finalizer ∈ (withToken obj (topoToken h finalizer)).finalizers := by
    simp [withToken]
  constructor
  · constructor
    · rintro ⟨o, ho⟩
      by_contra htok
      rw [ensure_eval_present noFaults obj h r finalizer dls dmlk hv rfl htok,
        finishEnsure_calls] at ho
      simp at ho
    · intro htok
      rw [ensure_eval_absent_ok noFaults obj h r finalizer dls dmlk hv rfl htok rfl,
        finishEnsure_calls]
      exact ⟨withToken obj (topoToken h finalizer), by simp⟩
  · intro htok
    rw [ensure_eval_absent_ok noFaults obj h r finalizer dls dmlk hv rfl htok rfl,
      finishEnsure_eval_ok _ _ _ _ _ _ rfl,
      ensure_eval_present noFaults _ h r finalizer dls dmlk hv rfl htok2,
      finishEnsure_eval_ok _ _ _ _ _ _ rfl]
    exact ⟨rfl, rfl, rfl, rfl⟩

/-- Witness for C2: first call adds and persists the token, the second
call against the persisted object makes only the fetch call. -/
theorem ensureTopologyRef_finalizer_idempotent_witness :
    (ensureTopologyRef noFaults (some sampleObj) sampleHelper (some sampleRef)
        "myservice" sampleDLS sampleKeys).err = none ∧
    (ensureTopologyRef noFaults (some sampleObj) sampleHelper (some sampleRef)
        "myservice" sampleDLS sampleKeys).store =
      some (withToken sampleObj (topoToken sampleHelper "myservice")) ∧
    (ensureTopologyRef noFaults
        (some (withToken sampleObj (topoToken sampleHelper "myservice")))
        sampleHelper (some sampleRef) "myservice" sampleDLS sampleKeys).err = none ∧
    (ensureTopologyRef noFaults
        (some (withToken sampleObj (topoToken sampleHelper "myservice")))
        sampleHelper (some sampleRef) "myservice" sampleDLS sampleKeys).calls =
      [StoreCall.fetch sampleRef.name sampleRef.ns] :=
  (ensureTopologyRef_finalizer_idempotent sampleObj sampleHelper sampleRef "myservice"
    sampleDLS sampleKeys (by decide)).2 (by decide)

/-- C8: when the hash computation over the defaulted copy fails, the hash
error is returned verbatim together with the defaulted, non-persisted
copy and the empty hash string; the store never receives the defaults. -/
theorem ensureTopologyRef_hash_error (faults : Faults) (obj : TopologyObj)
    (h : Helper) (r : TopologyRef) (finalizer : String)
    (dls : LabelSelector) (dmlk : List String) (msg : String)
    (hv : ¬(r.name = "" ∨ r.ns = "")) (hfe : faults.fetchErr = none)
    (hue : faults.updateErr = none) (hh : faults.hashErr = some msg) :
    (ensureTopologyRef faults (some obj) h (some r) finalizer dls dmlk).err =
      some (GoError.hashErr msg) ∧
    (ensureTopologyRef faults (some obj) h (some r) finalizer dls dmlk).hash = "" ∧
    (∃ tp, (ensureTopologyRef faults (some obj) h (some r) finalizer dls dmlk).topology =
      some tp ∧ tp.spec = applyDefaults dls dmlk obj.spec) ∧
    (∀ o, (ensureTopologyRef faults (some obj) h (some r) finalizer dls dmlk).store =
      some o → o.spec = obj.spec) := by
  by_cases htok : topoToken h finalizer ∈ obj.finalizers
  · rw [ensure_eval_present faults obj h r finalizer dls dmlk hv hfe htok,
      finishEnsure_eval_err faults obj dls dmlk _ _ msg hh]
    refine ⟨rfl, rfl, ⟨_, rfl, rfl⟩, ?_⟩
    intro o ho
    rw [← Option.some.inj ho]
  · rw [ensure_eval_absent_ok faults obj h r finalizer dls dmlk hv hfe htok hue,
      finishEnsure_eval_err faults _ dls dmlk _ _ msg hh]
    refine ⟨rfl, rfl, ⟨_, rfl, rfl⟩, ?_⟩
    intro o ho
    rw [← Option.some.inj ho]
    rfl

/-- Witness for C8: an injected marshalling failure. -/
theorem ensureTopologyRef_hash_error_witness :
    (ensureTopologyRef ⟨none, none, some "marshal"⟩ (some sampleObj) sampleHelper
        (some sampleRef) "myservice" sampleDLS sampleKeys).err =
      some (GoError.hashErr "marshal") ∧
    (ensureTopologyRef ⟨none, none, some "marshal"⟩ (some sampleObj) sampleHelper
        (some sampleRef) "myservice" sampleDLS sampleKeys).hash = "" ∧
    (∃ tp, (ensureTopologyRef ⟨none, none, some "marshal"⟩ (some sampleObj) sampleHelper
        (some sampleRef) "myservice" sampleDLS sampleKeys).topology = some tp ∧
      tp.spec = applyDefaults sampleDLS sampleKeys sampleObj.spec) ∧
    (∀ o, (ensureTopologyRef ⟨none, none, some "marshal"⟩ (some sampleObj) sampleHelper
        (some sampleRef) "myservice" sampleDLS sampleKeys).store = some o →
      o.spec = sampleObj.spec) :=
  ensureTopologyRef_hash_error ⟨none, none, some "marshal"⟩ sampleObj sampleHelper
    sampleRef "myservice" sampleDLS sampleKeys "marshal" (by decide) rfl rfl rfl

/-- On any run that returns a nil error the hash is the digest of the
returned object's spec. -/
theorem ensure_success_hash (faults : Faults) (store : Option TopologyObj)
    (h : Helper) (ref : Option TopologyRef) (finalizer : String)
    (dls : LabelSelector) (dmlk : List String) (o : TopologyObj)
    (herr : (ensureTopologyRef faults store h ref finalizer dls dmlk).err = none)
    (ht : (ensureTopologyRef faults store h ref finalizer dls dmlk).topology = some o) :
    (ensureTopologyRef faults store h ref finalizer dls dmlk).hash = specHash o.spec := by
  cases ref with
  | none => simp [ensureTopologyRef] at herr
  | some r =>
    by_cases hv : r.name = "" ∨ r.ns = ""
    · simp [ensureTopologyRef, hv] at herr
    · cases hfe : faults.fetchErr with
      | some e =>
        have heval : ensureTopologyRef faults store h (some r) finalizer dls dmlk =
            ⟨none, "", some (GoError.k8s e), [StoreCall.fetch r.name r.ns], store⟩ := by
          simp [ensureTopologyRef, getTopologyByName, hfe, hv]
        rw [heval] at herr
        simp at herr
      | none =>
        cases store with
        | none =>
          have heval : ensureTopologyRef faults none h (some r) finalizer dls dmlk =
              ⟨none, "", some (GoError.k8s K8sError.notFound),
                [StoreCall.fetch r.name r.ns], none⟩ := by
            simp [ensureTopologyRef, getTopologyByName, hfe, hv]
          rw [heval] at herr
          simp at herr
        | some obj =>
          cases hh : faults.hashErr with
          | some msg =>
            by_cases htok : topoToken h finalizer ∈ obj.finalizers
            · rw [ensure_eval_present faults obj h r finalizer dls dmlk hv hfe htok,
                finishEnsure_eval_err faults obj dls dmlk _ _ msg hh] at herr
              simp at herr
            · cases hue : faults.updateErr with
              | some e =>
                rw [ensure_eval_absent_err faults obj h r finalizer dls dmlk e hv hfe
                  htok hue] at herr
                simp at herr
              | none =>
                rw [ensure_eval_absent_ok faults obj h r finalizer dls dmlk hv hfe htok hue,
                  finishEnsure_eval_err faults _ dls dmlk _ _ msg hh] at herr
                simp at herr
          | none =>
            by_cases htok : topoToken h finalizer ∈ obj.finalizers
            · rw [ensure_eval_present faults obj h r finalizer dls dmlk hv hfe htok,
                finishEnsure_eval_ok _ _ _ _ _ _ hh] at ht ⊢
              rw [← Option.some.inj ht]
            · cases hue : faults.updateErr with
              | some e =>
                rw [ensure_eval_absent_err faults obj h r finalizer dls dmlk e hv hfe
                  htok hue] at herr
                simp at herr
              | none =>
                rw [ensure_eval_absent_ok faults obj h r finalizer dls dmlk hv hfe htok hue,
                  finishEnsure_eval_ok _ _ _ _ _ _ hh] at ht ⊢
                rw [← Option.some.inj ht]

/-- C10: whenever the call returns a nil error, the returned object's
finalizer list contains the token built from the owner finalizer and the
caller suffix. -/
theorem ensureTopologyRef_success_finalizer_present (faults : Faults)
    (store : Option TopologyObj) (h : Helper) (ref : Option TopologyRef)
    (finalizer : String) (dls : LabelSelector) (dmlk : List String)
    (herr : (ensureTopologyRef faults store h ref finalizer dls dmlk).err = none) :
    ∃ t, (ensureTopologyRef faults store h ref finalizer dls dmlk).topology = some t ∧
      topoToken h finalizer ∈ t.finalizers := by
  cases ref with
  | none => simp [ensureTopologyRef] at herr
  | some r =>
    by_cases hv : r.name = "" ∨ r.ns = ""
    · simp [ensureTopologyRef, hv] at herr
    · cases hfe : faults.fetchErr with
      | some e =>
        have heval : ensureTopologyRef faults store h (some r) finalizer dls dmlk =
            ⟨none, "", some (GoError.k8s e), [StoreCall.fetch r.name r.ns], store⟩ := by
          simp [ensureTopologyRef, getTopologyByName, hfe, hv]
        rw [heval] at herr
        simp at herr
      | none =>
        cases store with
        | none =>
          have heval : ensureTopologyRef faults none h (some r) finalizer dls dmlk =
              ⟨none, "", some (GoError.k8s K8sError.notFound),
                [StoreCall.fetch r.name r.ns], none⟩ := by
            simp [ensureTopologyRef, getTopologyByName, hfe, hv]
          rw [heval] at herr
          simp at herr
        | some obj =>
          cases hh : faults.hashErr with
          | some msg =>
            by_cases htok : topoToken h finalizer ∈ obj.finalizers
            · rw [ensure_eval_present faults obj h r finalizer dls dmlk hv hfe htok,
                finishEnsure_eval_err faults obj dls dmlk _ _ msg hh] at herr
              simp at herr
            · cases hue : faults.updateErr with
              | some e =>
                rw [ensure_eval_absent_err faults obj h r finalizer dls dmlk e hv hfe
                  htok hue] at herr
                simp at herr
              | none =>
                rw [ensure_eval_absent_ok faults obj h r finalizer dls dmlk hv hfe htok hue,
                  finishEnsure_eval_err faults _ dls dmlk _ _ msg hh] at herr
                simp at herr
          | none =>
            by_cases htok : topoToken h finalizer ∈ obj.finalizers
            · rw [ensure_eval_present faults obj h r finalizer dls dmlk hv hfe htok,
                finishEnsure_eval_ok _ _ _ _ _ _ hh]
              exact ⟨_, rfl, htok⟩
            · cases hue : faults.updateErr with
              | some e =>
                rw [ensure_eval_absent_err faults obj h r finalizer dls dmlk e hv hfe
                  htok hue] at herr
                simp at herr
              | none =>
                rw [ensure_eval_absent_ok faults obj h r finalizer dls dmlk hv hfe htok hue,
                  finishEnsure_eval_ok _ _ _ _ _ _ hh]
                refine ⟨_, rfl, ?_⟩
                simp [withToken]

/-- Witness for C10: a fault-free run on a token-free object. -/
theorem ensureTopologyRef_success_finalizer_present_witness :
    (ensureTopologyRef noFaults (some sampleObj) sampleHelper (some sampleRef)
        "myservice" sampleDLS sampleKeys).err = none ∧
    ∃ t, (ensureTopologyRef noFaults (some sampleObj) sampleHelper (some sampleRef)
        "myservice" sampleDLS sampleKeys).topology = some t ∧
      topoToken sampleHelper "myservice" ∈ t.finalizers :=
  ⟨rfl, ensureTopologyRef_success_finalizer_present noFaults (some sampleObj)
    sampleHelper (some sampleRef) "myservice" sampleDLS sampleKeys rfl⟩

/-- C9: across any two runs that return a nil error, equal post-defaulting
specifications on the returned objects give identical hash values, and
differing post-defaulting specifications give differing hash values. -/
theorem ensureTopologyRef_hash_stability
    (faults1 faults2 : Faults) (store1 store2 : Option TopologyObj)
    (h1 h2 : Helper) (ref1 ref2 : Option TopologyRef) (fs1 fs2 : String)
    (dls1 dls2 : LabelSelector) (dmlk1 dmlk2 : List String)
    (o1 o2 : TopologyObj)
    (herr1 : (ensureTopologyRef faults1 store1 h1 ref1 fs1 dls1 dmlk1).err = none)
    (herr2 : (ensureTopologyRef faults2 store2 h2 ref2 fs2 dls2 dmlk2).err = none)
    (ht1 : (ensureTopologyRef faults1 store1 h1 ref1 fs1 dls1 dmlk1).topology = some o1)
    (ht2 : (ensureTopologyRef faults2 store2 h2 ref2 fs2 dls2 dmlk2).topology = some o2) :
    (o1.spec = o2.spec →
      (ensureTopologyRef faults1 store1 h1 ref1 fs1 dls1 dmlk1).hash =
        (ensureTopologyRef faults2 store2 h2 ref2 fs2 dls2 dmlk2).hash) ∧
    (o1.spec ≠ o2.spec →
      (ensureTopologyRef faults1 store1 h1 ref1 fs1 dls1 dmlk1).hash ≠
        (ensureTopologyRef faults2 store2 h2 ref2 fs2 dls2 dmlk2).hash) := by
  have k1 := ensure_success_hash faults1 store1 h1 ref1 fs1 dls1 dmlk1 o1 herr1 ht1
  have k2 := ensure_success_hash faults2 store2 h2 ref2 fs2 dls2 dmlk2 o2 herr2 ht2
  constructor
  · intro hspec
    rw [k1, k2, hspec]
  · intro hspec hcontra
    apply hspec
    apply specHash_injective
    rw [← k1, ← k2, hcontra]

/-- Witness for C9: runs on two objects whose defaulted specs differ give
different hashes. -/
theorem ensureTopologyRef_hash_stability_witness :
    sampleOut1.spec ≠ sampleOut2.spec ∧
    (ensureTopologyRef noFaults (some sampleObj) sampleHelper (some sampleRef)
        "myservice" sampleDLS sampleKeys).hash ≠
      (ensureTopologyRef noFaults (some sampleObj2) sampleHelper (some sampleRef)
        "myservice" sampleDLS sampleKeys).hash :=
  ⟨by decide,
    (ensureTopologyRef_hash_stability noFaults noFaults (some sampleObj) (some sampleObj2)
      sampleHelper sampleHelper (some sampleRef) (some sampleRef) "myservice" "myservice"
      sampleDLS sampleDLS sampleKeys sampleKeys sampleOut1 sampleOut2
      rfl rfl rfl rfl).2 (by decide)⟩

/-- C7: the delete path tolerates not-found on the fetch (success, no
further action) and on the persist (success), returns any other fetch or
persist error, persists the token removal when the token is present, and
issues no update when the token is absent. -/
theorem ensureDeletedTopologyRef_error_handling (faults : Faults)
    (store : Option TopologyObj) (h : Helper) (r : TopologyRef) (finalizer : String)
    (hv : ¬(r.name = "" ∨ r.ns = "")) :
    (faults.fetchErr = none → store = none →
      ensureDeletedTopologyRef faults store h (some r) finalizer =
        ⟨none, [StoreCall.fetch r.name r.ns], none⟩) ∧
    (faults.fetchErr = some K8sError.notFound →
      ensureDeletedTopologyRef faults store h (some r) finalizer =
        ⟨none, [StoreCall.fetch r.name r.ns], store⟩) ∧
    (∀ m, faults.fetchErr = some (K8sError.other m) →
      ensureDeletedTopologyRef faults store h (some r) finalizer =
        ⟨some (GoError.k8s (K8sError.other m)), [StoreCall.fetch r.name r.ns], store⟩) ∧
    (∀ obj, faults.fetchErr = none → store = some obj → faults.updateErr = none →
      topoToken h finalizer ∈ obj.finalizers →
      ensureDeletedTopologyRef faults store h (some r) finalizer =
        ⟨none, [StoreCall.fetch r.name r.ns,
          StoreCall.update ((removeFinalizer obj (topoToken h finalizer)).1)],
          some ((removeFinalizer obj (topoToken h finalizer)).1)⟩ ∧
      topoToken h finalizer ∉ ((removeFinalizer obj (topoToken h finalizer)).1).finalizers) ∧
    (∀ obj, faults.fetchErr = none → store = some obj →
      faults.updateErr = some K8sError.notFound →
      topoToken h finalizer ∈ obj.finalizers →
      ensureDeletedTopologyRef faults store h (some r) finalizer =
        ⟨none, [StoreCall.fetch r.name r.ns,
          StoreCall.update ((removeFinalizer obj (topoToken h finalizer)).1)], store⟩) ∧
    (∀ obj m, faults.fetchErr = none → store = some obj →
      faults.updateErr = some (K8sError.other m) →
      topoToken h finalizer ∈ obj.finalizers →
      ensureDeletedTopologyRef faults store h (some r) finalizer =
        ⟨some (GoError.k8s (K8sError.other m)), [StoreCall.fetch r.name r.ns,
          StoreCall.update ((removeFinalizer obj (topoToken h finalizer)).1)], store⟩) ∧
    (∀ obj, faults.fetchErr = none → store = some obj →
      topoToken h finalizer ∉ obj.finalizers →
      ensureDeletedTopologyRef faults store h (some r) finalizer =
        ⟨none, [StoreCall.fetch r.name r.ns], store⟩) := by
  refine ⟨?_, ?_, ?_, ?_, ?_, ?_, ?_⟩
  · intro hfe hs
    subst hs
    simp [ensureDeletedTopologyRef, getTopologyByName, hfe, hv]
  · intro hfe
    simp [ensureDeletedTopologyRef, getTopologyByName, hfe, hv]
  · intro m hfe
    simp [ensureDeletedTopologyRef, getTopologyByName, hfe, hv]
  · intro obj hfe hs hue htok
    subst hs
    constructor
    · simp [ensureDeletedTopologyRef, getTopologyByName, hfe, hv, removeFinalizer,
        htok, clientUpdate, hue]
    · simp [removeFinalizer, htok]
  · intro obj hfe hs hue htok
    subst hs
    simp [ensureDeletedTopologyRef, getTopologyByName, hfe, hv, removeFinalizer,
      htok, clientUpdate, hue]
  · intro obj m hfe hs hue htok
    subst hs
    simp [ensureDeletedTopologyRef, getTopologyByName, hfe, hv, removeFinalizer,
      htok, clientUpdate, hue]
  · intro obj hfe hs htok
    subst hs
    simp [ensureDeletedTopologyRef, getTopologyByName, hfe, hv, removeFinalizer, htok]

/-- Witness for C7: the token-present, fault-free branch at a concrete
stored object. -/
theorem ensureDeletedTopologyRef_error_handling_witness :
    (ensureDeletedTopologyRef noFaults
        (some (withToken sampleObj (topoToken sampleHelper "myservice"))) sampleHelper
        (some sampleRef) "myservice" =
      ⟨none, [StoreCall.fetch sampleRef.name sampleRef.ns,
        StoreCall.update ((removeFinalizer (withToken sampleObj (topoToken sampleHelper "myservice"))
          (topoToken sampleHelper "myservice")).1)],
        some ((removeFinalizer (withToken sampleObj (topoToken sampleHelper "myservice"))
          (topoToken sampleHelper "myservice")).1)⟩) ∧
    topoToken sampleHelper "myservice" ∉
      ((removeFinalizer (withToken sampleObj (topoToken sampleHelper "myservice"))
        (topoToken sampleHelper "myservice")).1).finalizers :=
  (ensureDeletedTopologyRef_error_handling noFaults
      (some (withToken sampleObj (topoToken sampleHelper "myservice"))) sampleHelper
      sampleRef "myservice" (by decide)).2.2.2.1
    (withToken sampleObj (topoToken sampleHelper "myservice")) rfl rfl rfl (by decide)
